import Mathlib

/-!
# Package `hid` (hid.go): a shallow embedding

The Go binding is a thin layer over the native hidapi library.  The embedding
keeps the control flow of every Go function and renders what lies outside the
Go code (the native library, and the memory the system grants the allocator) as
an explicit record of answers (`Native`); every native call a Go function makes
is appended to a trace, so that "does not reach the native layer" is a
statement about that trace.

Conventions
* a Go `string` and a Go `[]byte` are lists of bytes (`Nat` below 256);
* Go `int` is `Int`; conversions to narrower C types are written with an
  explicit `%` (`C_uint`, `C_ushort`, `C_int`, `byte`);
* a pointer is an `Option` (`none` is `nil`);
* a C string is the list of cells found at its address; the native layer's
  strings are null-terminated, which the model renders by a terminating zero
  cell following the last listed cell;
* the allocation whose length the caller chooses, `make([]byte, numBytes)` in
  `Read_timeout`, follows the Go runtime (`makeBytes`): a run-time panic on a
  negative length or one above `maxAlloc`, a fatal out-of-memory error when
  the system does not grant the bytes; the fixed-size and string allocations
  of the package are taken to succeed.
-/

namespace hid

/-! ## Values -/

/-- A Go string: an immutable sequence of bytes. -/
abbrev GoString := List Nat

/-- The bytes of an ASCII string literal of the source. -/
def lit (s : String) : GoString := s.toList.map Char.toNat

/-- The constant `wchar_buffer_size`. -/
def wchar_buffer_size : Nat := 256

/-- Go conversion `byte(x)`: the low 8 bits of an integer. -/
def byte (x : Int) : Nat := (x % 256).toNat

/-- Conversion `C.uint(i)` of a Go `uint` (64 bits on the 64-bit platforms):
C `unsigned` has 32 bits, the higher bits are dropped. -/
def C_uint (i : Nat) : Nat := i % 2 ^ 32

/-- Conversion `C.ushort(v)` of a Go `int`: C `unsigned short` has 16 bits. -/
def C_ushort (v : Int) : Nat := (v % 2 ^ 16).toNat

/-- Conversion `C.int(v)` of a Go `int`: C `int` has 32 bits, two's complement. -/
def C_int (v : Int) : Int := (v + 2 ^ 31) % 2 ^ 32 - 2 ^ 31

/-! ## The wide-character decoders -/

/-- C `wcslen`: the number of wide characters before the first zero cell. -/
def wcslen : List Int → Nat
  | [] => 0
  | c :: rest => if c = 0 then 0 else wcslen rest + 1

/-- The C helper `wchar_at(s, index)`: `s[index]`. -/
def wchar_at (s : List Int) (index : Nat) : Int := s.getD index 0

/-- Go `wchar2str(wstr)`: `nil` gives the empty string; otherwise one byte per
wide character up to `wcslen`, each `byte(c & 0xFF)` with
`c := C.wchar_at(wstr, C.uint(i))`. -/
def wchar2str (wstr : Option (List Int)) : GoString :=
  match wstr with
  | none => []
  | some s =>
    let slen := wcslen s
    (List.range slen).map (fun i => byte (Int.land (wchar_at s (C_uint i)) 0xFF))

/-- A Go array `[wchar_buffer_size]C.wchar_t`. -/
structure WcharBuf where
  cells : List Int
  size : cells.length = wchar_buffer_size

/-- The loop `for ; slen < wchar_buffer_size && wchars[slen] != term; slen++ {}`
of `wcharBuf2str`, run on the cells from index `slen` on. -/
def findTerm : List Int → Nat → Nat
  | [], slen => slen
  | c :: rest, slen =>
    if slen < wchar_buffer_size ∧ c ≠ 0 then findTerm rest (slen + 1) else slen

/-- Go `wcharBuf2str(wchars)`: finds the null terminator within the buffer, then
`raw[i] = byte(int(wchars[i]) & 0xFF)` for every `i` below it. -/
def wcharBuf2str (wchars : WcharBuf) : GoString :=
  let slen := findTerm wchars.cells 0
  (List.range slen).map (fun i => byte (Int.land (wchars.cells.getD i 0) 0xFF))

/-! ## Host strings and the encoding direction of the string bridge -/

/-- Go `string(rune(r))`: the UTF-8 bytes of one code point (the replacement
character U+FFFD for a surrogate or a value above U+10FFFF). -/
def utf8EncodeRune (r : Nat) : GoString :=
  if r < 0x80 then [r]
  else if r < 0x800 then [0xC0 + r / 64, 0x80 + r % 64]
  else if (0xD800 ≤ r ∧ r < 0xE000) ∨ 0x10FFFF < r then [0xEF, 0xBF, 0xBD]
  else if r < 0x10000 then [0xE0 + r / 4096, 0x80 + r / 64 % 64, 0x80 + r % 64]
  else [0xF0 + r / 262144, 0x80 + r / 4096 % 64, 0x80 + r / 64 % 64, 0x80 + r % 64]

/-- The Go (host) string whose code points are `cps`: Go strings hold UTF-8. -/
def hostString (cps : List Nat) : GoString := cps.flatMap utf8EncodeRune

/-- Modelled from the spec: the repository has no encoder; this is the encoding
direction of the string bridge as the round-trip property words it, a
null-terminated wide-character sequence with one wide character per code
point. -/
def encodeWide (cps : List Nat) : List Int := cps.map Int.ofNat ++ [0]

/-- Modelled from the spec: the wide characters of `cps` placed at the start of
a zero-filled buffer of `wchar_buffer_size` elements. -/
def bufferOf (cps : List Nat) (h : cps.length < wchar_buffer_size) : WcharBuf :=
  ⟨cps.map Int.ofNat ++ List.replicate (wchar_buffer_size - cps.length) 0, by
    simp only [List.length_append, List.length_map, List.length_replicate]; omega⟩

/-! ## Errors, panics and the trace of native calls -/

/-- A Go `error` made by `errors.New(msg)`; a Go value of type `error` is an
`Option GoError`, `none` being `nil`. -/
structure GoError where
  msg : GoString
deriving DecidableEq

/-- What a Go panic carries: the error handed to `panic(...)`, or one of the
two run-time errors the package can raise. -/
inductive PanicValue
  | error (e : GoError)
  | indexOutOfRange
  | makesliceLenOutOfRange
deriving DecidableEq

/-- How a Go call ends: it returns a value, it panics, or the runtime stops the
program with the fatal error "out of memory" (which is not a panic). -/
inductive Outcome (α : Type)
  | returned (a : α)
  | panicked (p : PanicValue)
  | outOfMemory
deriving DecidableEq

/-- The C struct `hid_device_info`; the `next` link is the tail of the list the
record sits in. -/
structure hid_device_info where
  path : Option (List Nat)
  vendor_id : Nat
  product_id : Nat
  serial_number : Option (List Int)
  release_number : Nat
  manufacturer_string : Option (List Int)
  product_string : Option (List Int)
  usage_page : Nat
  usage : Nat
  interface_number : Int
deriving DecidableEq

/-- One call into the native library, with its arguments. -/
inductive NativeCall
  | hid_init
  | hid_exit
  | hid_enumerate (vendor_id product_id : Nat)
  | hid_free_enumeration (devs : List hid_device_info)
  | hid_open (vendor_id product_id : Nat)
  | hid_open_path (path : List Nat)
  | hid_close (device : Option Nat)
  | hid_error (device : Option Nat)
  | hid_get_manufacturer_string (device : Option Nat) (maxlen : Nat)
  | hid_get_product_string (device : Option Nat) (maxlen : Nat)
  | hid_get_serial_number_string (device : Option Nat) (maxlen : Nat)
  | hid_read_timeout (device : Option Nat) (length : Nat) (milliseconds : Int)
  | hid_write (device : Option Nat) (data : List Nat) (length : Nat)
deriving DecidableEq

/-- The result of running a Go function: the native calls it made, in order,
and how it ended. -/
structure Run (α : Type) where
  calls : List NativeCall
  outcome : Outcome α

/-- The answers of what lies outside the Go code: the native library, and in
`heap` the number of bytes the system grants the Go allocator for one
allocation.  A native function that fills a caller's buffer answers with its
return value and the cells it stored from the start of the buffer. -/
structure Native where
  heap : Nat
  hid_init : Int
  hid_enumerate : Nat → Nat → List hid_device_info
  hid_open : Nat → Nat → Option Nat
  hid_open_path : List Nat → Option Nat
  hid_error : Option Nat → Option (List Int)
  hid_get_manufacturer_string : Option Nat → Nat → Int × List Int
  hid_get_product_string : Option Nat → Nat → Int × List Int
  hid_get_serial_number_string : Option Nat → Nat → Int × List Int
  hid_read_timeout : Option Nat → Nat → Int → Int × List Nat
  hid_write : Option Nat → List Nat → Nat → Int

/-- The caller's buffer `buf` after the native layer stored `written` from its
first cell on. -/
def nativeStore {α : Type} (written buf : List α) : List α :=
  (written ++ buf.drop written.length).take buf.length

/-- The zero value of `[wchar_buffer_size]C.wchar_t` after a native string
query stored `written` into it. -/
def WcharBuf.filled (written : List Int) : WcharBuf :=
  ⟨nativeStore written (List.replicate wchar_buffer_size 0), by
    simp only [nativeStore, List.length_take, List.length_append, List.length_drop,
      List.length_replicate]; omega⟩

/-- The constant `maxAlloc` of the Go runtime on 64-bit Linux: the largest
allocation, in bytes, that `makeslice` lets through. -/
def maxAlloc : Nat := 2 ^ 48

/-- Go `make([]byte, len)` when `heap` bytes can be had: `makeslice` panics
"len out of range" on a negative length and on one above `maxAlloc`; the
allocation that follows is fatal when the bytes are not there; otherwise the
slice is `len` zero bytes. -/
def makeBytes (heap : Nat) (len : Int) : Outcome (List Nat) :=
  if len < 0 ∨ (maxAlloc : Int) < len then .panicked .makesliceLenOutOfRange
  else if heap < len.toNat then .outOfMemory
  else .returned (List.replicate len.toNat 0)

/-- Conversion `C.size_t(v)` of a Go `int`: C `size_t` has 64 bits. -/
def C_size_t (v : Int) : Nat := (v % 2 ^ 64).toNat

/-- Conversion `C.GoString(p)`: the bytes before the first zero byte. -/
def C_GoString (p : List Nat) : GoString := p.takeWhile (fun b => b ≠ 0)

/-- Conversion `C.CString(s)`: a copy of the bytes followed by a zero byte. -/
def C_CString (s : GoString) : List Nat := s ++ [0]

/-- Upper-case hexadecimal digits of a natural number. -/
def hexUpper (n : Nat) : GoString := (Nat.toDigits 16 n).map (fun c => c.toUpper.toNat)

/-- The verb `%04X` of `fmt.Sprintf` on a Go `int`: zero padded to width 4, the
sign counting towards the width. -/
def fmt04X (v : Int) : GoString :=
  if v < 0 then
    lit "-" ++ List.replicate (3 - (hexUpper v.natAbs).length) 48 ++ hexUpper v.natAbs
  else
    List.replicate (4 - (hexUpper v.toNat).length) 48 ++ hexUpper v.toNat

/-! ## Data model -/

/-- The Go struct `Connection`; `cptr` is `none` once closed. -/
structure Connection where
  cptr : Option Nat
deriving DecidableEq

/-- The Go struct `DeviceInfo`. -/
structure DeviceInfo where
  Path : GoString
  VendorID : Int
  ProductID : Int
  SerialNumber : GoString
  ReleaseNumber : Int
  ManufacturerStr : GoString
  ProductStr : GoString
  UsagePage : Int
  Usage : Int
  InterfaceNumber : Int
deriving DecidableEq

/-! ## Library lifecycle (`gInitState` is passed explicitly) -/

/-- Go `Init()`: the new `gInitState` and the run. -/
def Init (nat : Native) (gInitState : Int) : Int × Run (Option GoError) :=
  if nat.hid_init ≠ 0 then
    (gInitState, ⟨[.hid_init], .returned (some ⟨lit "Failed to initialize HID library"⟩)⟩)
  else
    (1, ⟨[.hid_init], .returned none⟩)

/-- Go `Exit()`: the new `gInitState` and the run. -/
def Exit (_gInitState : Int) : Int × Run Unit :=
  (2, ⟨[.hid_exit], .returned ()⟩)

/-- Go `panicIfNotInit()`: the panic it raises, if any. -/
def panicIfNotInit (gInitState : Int) : Option PanicValue :=
  if gInitState = 0 then
    some (.error ⟨lit "hidapi.Init() was not called"⟩)
  else if gInitState = 2 then
    some (.error ⟨lit "hidapi.Exit() was already called!"⟩)
  else
    none

/-- Go `Open(vendorId, productId)`. -/
def Open (nat : Native) (gInitState : Int) (vendorId productId : Int) :
    Run (Option Connection × Option GoError) :=
  match panicIfNotInit gInitState with
  | some p => ⟨[], .panicked p⟩
  | none =>
    let call := NativeCall.hid_open (C_ushort vendorId) (C_ushort productId)
    match nat.hid_open (C_ushort vendorId) (C_ushort productId) with
    | some ptr => ⟨[call], .returned (some ⟨some ptr⟩, none)⟩
    | none =>
      ⟨[call], .returned (none, some ⟨lit "Unable to open HID device (vendor 0x"
        ++ fmt04X vendorId ++ lit ", product 0x" ++ fmt04X productId ++ lit ")"⟩)⟩

/-- Go `(dev *DeviceInfo) Open()`. -/
def DeviceInfo.Open (nat : Native) (gInitState : Int) (dev : DeviceInfo) :
    Run (Option Connection × Option GoError) :=
  match panicIfNotInit gInitState with
  | some p => ⟨[], .panicked p⟩
  | none =>
    let cpath := C_CString dev.Path
    match nat.hid_open_path cpath with
    | some ptr => ⟨[.hid_open_path cpath], .returned (some ⟨some ptr⟩, none)⟩
    | none =>
      ⟨[.hid_open_path cpath], .returned (none,
        some ⟨lit "Unable to open HID device (path " ++ dev.Path ++ lit ")"⟩)⟩

/-! ## Connections -/

/-- Go `(self *Connection) Close()`: the connection afterwards and the run. -/
def Connection.Close (self : Connection) : Connection × Run Unit :=
  if self.cptr ≠ none then
    (⟨none⟩, ⟨[.hid_close self.cptr], .returned ()⟩)
  else
    (self, ⟨[], .returned ()⟩)

/-- Go `(self *Connection) errofIfClosed()`. -/
def Connection.errofIfClosed (self : Connection) : Option GoError :=
  if self.cptr = none then
    some ⟨lit "HID connection already closed"⟩
  else
    none

/-- Go `(self *Connection) last_error()`: the native call it makes and the
error it builds. -/
def Connection.last_error (nat : Native) (self : Connection) : List NativeCall × GoError :=
  let wcptr := nat.hid_error self.cptr
  let str := if wcptr ≠ none then wchar2str wcptr else lit "HID communication problem"
  ([.hid_error self.cptr], ⟨str⟩)

/-- Go `(self *Connection) panic_ptr()`: the panic it raises, if any. -/
def Connection.panic_ptr (self : Connection) : Option PanicValue :=
  if self.cptr = none then
    some (.error ⟨lit "Connection already closed!"⟩)
  else
    none

/-- Go `(self *Connection) GetManufacturerStr()`. -/
def Connection.GetManufacturerStr (nat : Native) (self : Connection) :
    Run (GoString × Option GoError) :=
  match self.panic_ptr with
  | some p => ⟨[], .panicked p⟩
  | none =>
    let call := NativeCall.hid_get_manufacturer_string self.cptr (wchar_buffer_size - 1)
    let answer := nat.hid_get_manufacturer_string self.cptr (wchar_buffer_size - 1)
    let wchars := WcharBuf.filled answer.2
    if answer.1 = 0 then
      ⟨[call], .returned (wcharBuf2str wchars, none)⟩
    else
      ⟨call :: (self.last_error nat).1, .returned ([], some (self.last_error nat).2)⟩

/-- Go `(self *Connection) GetProductStr()`. -/
def Connection.GetProductStr (nat : Native) (self : Connection) :
    Run (GoString × Option GoError) :=
  match self.panic_ptr with
  | some p => ⟨[], .panicked p⟩
  | none =>
    let call := NativeCall.hid_get_product_string self.cptr (wchar_buffer_size - 1)
    let answer := nat.hid_get_product_string self.cptr (wchar_buffer_size - 1)
    let wchars := WcharBuf.filled answer.2
    if answer.1 = 0 then
      ⟨[call], .returned (wcharBuf2str wchars, none)⟩
    else
      ⟨call :: (self.last_error nat).1, .returned ([], some (self.last_error nat).2)⟩

/-- Go `(self *Connection) GetSerialNumber()`. -/
def Connection.GetSerialNumber (nat : Native) (self : Connection) :
    Run (GoString × Option GoError) :=
  match self.panic_ptr with
  | some p => ⟨[], .panicked p⟩
  | none =>
    let call := NativeCall.hid_get_serial_number_string self.cptr (wchar_buffer_size - 1)
    let answer := nat.hid_get_serial_number_string self.cptr (wchar_buffer_size - 1)
    let wchars := WcharBuf.filled answer.2
    if answer.1 = 0 then
      ⟨[call], .returned (wcharBuf2str wchars, none)⟩
    else
      ⟨call :: (self.last_error nat).1, .returned ([], some (self.last_error nat).2)⟩

/-- Go `(self *Connection) Read_timeout(numBytes, timeoutMillis)`.  The returned
slice is `none` for `nil`.  `make([]byte, numBytes)` may panic or run out of
memory and `&data[0]` panics on an empty slice, all before the native call. -/
def Connection.Read_timeout (nat : Native) (self : Connection) (numBytes timeoutMillis : Int) :
    Run (Option (List Nat) × Option GoError) :=
  match self.errofIfClosed with
  | some err => ⟨[], .returned (none, some err)⟩
  | none =>
    match makeBytes nat.heap numBytes with
    | .panicked p => ⟨[], .panicked p⟩
    | .outOfMemory => ⟨[], .outOfMemory⟩
    | .returned buf =>
      if buf.length = 0 then ⟨[], .panicked .indexOutOfRange⟩
      else
        let call := NativeCall.hid_read_timeout self.cptr (C_size_t numBytes) (C_int timeoutMillis)
        let answer := nat.hid_read_timeout self.cptr (C_size_t numBytes) (C_int timeoutMillis)
        let data := nativeStore answer.2 buf
        if answer.1 = 0 then
          ⟨[call], .returned (none, none)⟩
        else if answer.1 > 0 then
          ⟨[call], .returned (some data, none)⟩
        else
          ⟨call :: (self.last_error nat).1, .returned (none, some (self.last_error nat).2)⟩

/-- Go `(self *Connection) Write(report)`.  `&report[0]` panics on an empty
report, before the native call. -/
def Connection.Write (nat : Native) (self : Connection) (report : List Nat) :
    Run (Option GoError) :=
  match self.errofIfClosed with
  | some err => ⟨[], .returned (some err)⟩
  | none =>
    if report.length = 0 then ⟨[], .panicked .indexOutOfRange⟩
    else
      let call := NativeCall.hid_write self.cptr report (C_size_t report.length)
      let res := nat.hid_write self.cptr report (C_size_t report.length)
      if res = (report.length : Int) then
        ⟨[call], .returned none⟩
      else
        ⟨call :: (self.last_error nat).1, .returned (some (self.last_error nat).2)⟩

/-! ## Enumeration -/

/-- The `DeviceInfo` that the body of the loop of `Enumerate` builds from one
native record. -/
def deviceOf (cdev : hid_device_info) : DeviceInfo :=
  let device : DeviceInfo :=
    { Path := []
      VendorID := (cdev.vendor_id : Int)
      ProductID := (cdev.product_id : Int)
      ManufacturerStr := wchar2str cdev.manufacturer_string
      ProductStr := wchar2str cdev.product_string
      SerialNumber := wchar2str cdev.serial_number
      ReleaseNumber := (cdev.release_number : Int)
      UsagePage := (cdev.usage_page : Int)
      Usage := (cdev.usage : Int)
      InterfaceNumber := cdev.interface_number }
  match cdev.path with
  | some p => { device with Path := C_GoString p }
  | none => { device with Path := lit "?" }

/-- The loop `for cdev != nil { ...; list = append(list, device); cdev = cdev.next }`
of `Enumerate`. -/
def walk : List hid_device_info → List DeviceInfo → List DeviceInfo
  | [], list => list
  | cdev :: next, list => walk next (list ++ [deviceOf cdev])

/-- Go `Enumerate(vendorId, productId)`. -/
def Enumerate (nat : Native) (gInitState : Int) (vendorId productId : Int) :
    Run (List DeviceInfo × Option GoError) :=
  match panicIfNotInit gInitState with
  | some p => ⟨[], .panicked p⟩
  | none =>
    let head := nat.hid_enumerate (C_ushort vendorId) (C_ushort productId)
    let list := walk head []
    let free := if head ≠ [] then [NativeCall.hid_free_enumeration head] else []
    ⟨NativeCall.hid_enumerate (C_ushort vendorId) (C_ushort productId) :: free,
      .returned (list, none)⟩

/-! ## Sequences of calls -/

/-- A call that acts on the lifecycle state, with the native layer it meets. -/
inductive LifecycleCall
  | Init (nat : Native)
  | Exit

/-- The state `gInitState` after one lifecycle call. -/
def LifecycleCall.next (gInitState : Int) : LifecycleCall → Int
  | .Init nat => (hid.Init nat gInitState).1
  | .Exit => (hid.Exit gInitState).1

/-- The state `gInitState` after a sequence of lifecycle calls. -/
def lifecycle (gInitState : Int) (calls : List LifecycleCall) : Int :=
  calls.foldl LifecycleCall.next gInitState

/-- A call of a method of `Connection`, with its arguments. -/
inductive ConnectionCall
  | Close
  | GetManufacturerStr
  | GetProductStr
  | GetSerialNumber
  | Read_timeout (numBytes timeoutMillis : Int)
  | Write (report : List Nat)

/-- One method call on a connection: the connection afterwards (only `Close`
assigns to `cptr`) and the native calls made. -/
def ConnectionCall.step (nat : Native) (self : Connection) :
    ConnectionCall → Connection × List NativeCall
  | .Close => (self.Close.1, self.Close.2.calls)
  | .GetManufacturerStr => (self, (self.GetManufacturerStr nat).calls)
  | .GetProductStr => (self, (self.GetProductStr nat).calls)
  | .GetSerialNumber => (self, (self.GetSerialNumber nat).calls)
  | .Read_timeout numBytes timeoutMillis =>
    (self, (self.Read_timeout nat numBytes timeoutMillis).calls)
  | .Write report => (self, (self.Write nat report).calls)

/-- A sequence of method calls on a connection, each meeting its own native
layer: the connection afterwards and all native calls made, in order. -/
def session (self : Connection) : List (Native × ConnectionCall) → Connection × List NativeCall
  | [] => (self, [])
  | (nat, call) :: rest =>
    let first := call.step nat self
    let later := session first.1 rest
    (later.1, first.2 ++ later.2)

/-- A native layer that reports failure everywhere and stores nothing; the
system grants 4096 bytes. -/
def deadNative : Native :=
  { heap := 4096
    hid_init := -1
    hid_enumerate := fun _ _ => []
    hid_open := fun _ _ => none
    hid_open_path := fun _ => none
    hid_error := fun _ => none
    hid_get_manufacturer_string := fun _ _ => (-1, [])
    hid_get_product_string := fun _ _ => (-1, [])
    hid_get_serial_number_string := fun _ _ => (-1, [])
    hid_read_timeout := fun _ _ _ => (-1, [])
    hid_write := fun _ _ _ => -1 }

/-- The native layer `deadNative`, except that a timed read answers `res` after
storing `written`. -/
def readNative (res : Int) (written : List Nat) : Native :=
  { deadNative with hid_read_timeout := fun _ _ _ => (res, written) }

/-- The native layer `deadNative`, except that a write answers `res`. -/
def writeNative (res : Int) : Native :=
  { deadNative with hid_write := fun _ _ _ => res }

/-- The native layer `deadNative`, except that `hid_init` answers `res`. -/
def initNative (res : Int) : Native :=
  { deadNative with hid_init := res }

/-- The native layer `deadNative`, except that an enumeration answers `devs`. -/
def enumNative (devs : List hid_device_info) : Native :=
  { deadNative with hid_enumerate := fun _ _ => devs }

/-- A lifecycle call that is not an `Init` whose `hid_init` answers 0. -/
def LifecycleCall.noSuccessfulInit : LifecycleCall → Prop
  | .Init nat => nat.hid_init ≠ 0
  | .Exit => True

/-- Whether a native call is a call of `hid_write`. -/
def NativeCall.isWrite : NativeCall → Bool
  | .hid_write _ _ _ => true
  | _ => false

/-! ## Theorems -/

/-! ### Reading -/

/-- What `Read_timeout` does on an open connection once the buffer is there:
`numBytes` between 1 and `maxAlloc`, and that many bytes granted. -/
theorem Read_timeout_allocated (nat : Native) (self : Connection)
    (numBytes timeoutMillis : Int) (hopen : self.cptr ≠ none) (hn : 1 ≤ numBytes)
    (hmax : numBytes ≤ (maxAlloc : Int)) (hmem : numBytes.toNat ≤ nat.heap) :
    self.Read_timeout nat numBytes timeoutMillis =
      if (nat.hid_read_timeout self.cptr (C_size_t numBytes) (C_int timeoutMillis)).1 = 0 then
        ⟨[.hid_read_timeout self.cptr (C_size_t numBytes) (C_int timeoutMillis)],
          .returned (none, none)⟩
      else if (nat.hid_read_timeout self.cptr (C_size_t numBytes) (C_int timeoutMillis)).1 > 0 then
        ⟨[.hid_read_timeout self.cptr (C_size_t numBytes) (C_int timeoutMillis)],
          .returned (some (nativeStore
            (nat.hid_read_timeout self.cptr (C_size_t numBytes) (C_int timeoutMillis)).2
            (List.replicate numBytes.toNat 0)), none)⟩
      else
        ⟨.hid_read_timeout self.cptr (C_size_t numBytes) (C_int timeoutMillis)
            :: (self.last_error nat).1,
          .returned (none, some (self.last_error nat).2)⟩ := by
  have h1 : ¬ (numBytes < 0 ∨ (maxAlloc : Int) < numBytes) := by omega
  have h2 : ¬ nat.heap < numBytes.toNat := by omega
  have h3 : ¬ numBytes.toNat = 0 := by omega
  have hm : makeBytes nat.heap numBytes = .returned (List.replicate numBytes.toNat 0) := by
    simp only [makeBytes, h1, h2, if_false]
  have hc : self.errofIfClosed = none := by
    simp [Connection.errofIfClosed, hopen]
  simp only [Connection.Read_timeout, hc, hm, List.length_replicate, h3, if_false]

/-- C1, as the code has it: on an open connection and for `numBytes ≥ 1`,
(a) when `make([]byte, numBytes)` can allocate (`numBytes ≤ maxAlloc` and the
bytes are granted) `Read_timeout` has three outcomes by the sign of the native
answer: zero gives `(nil, nil)`, a positive count gives `(data, nil)` with
`data` non-nil, a negative value gives `(nil, err)` with `err` non-nil and
equal to `last_error()`; (b) for `numBytes` above `maxAlloc` it panics
"makeslice: len out of range" with no native call; (c) when the bytes are not
granted it ends in the fatal out-of-memory error with no native call. -/
theorem Read_timeout_three_outcomes (nat : Native) (self : Connection)
    (numBytes timeoutMillis : Int) (hopen : self.cptr ≠ none) (hn : 1 ≤ numBytes) :
    (numBytes ≤ (maxAlloc : Int) → numBytes.toNat ≤ nat.heap →
      ((nat.hid_read_timeout self.cptr (C_size_t numBytes) (C_int timeoutMillis)).1 = 0 →
        (self.Read_timeout nat numBytes timeoutMillis).outcome = .returned (none, none)) ∧
      (0 < (nat.hid_read_timeout self.cptr (C_size_t numBytes) (C_int timeoutMillis)).1 →
        ∃ data, (self.Read_timeout nat numBytes timeoutMillis).outcome
          = .returned (some data, none)) ∧
      ((nat.hid_read_timeout self.cptr (C_size_t numBytes) (C_int timeoutMillis)).1 < 0 →
        (self.Read_timeout nat numBytes timeoutMillis).outcome
          = .returned (none, some (self.last_error nat).2))) ∧
    ((maxAlloc : Int) < numBytes →
      (self.Read_timeout nat numBytes timeoutMillis).outcome
          = .panicked .makesliceLenOutOfRange ∧
        (self.Read_timeout nat numBytes timeoutMillis).calls = []) ∧
    (numBytes ≤ (maxAlloc : Int) → nat.heap < numBytes.toNat →
      (self.Read_timeout nat numBytes timeoutMillis).outcome = .outOfMemory ∧
        (self.Read_timeout nat numBytes timeoutMillis).calls = []) := by
  have hc : self.errofIfClosed = none := by
    simp [Connection.errofIfClosed, hopen]
  refine ⟨?_, ?_, ?_⟩
  · intro hmax hmem
    rw [Read_timeout_allocated nat self numBytes timeoutMillis hopen hn hmax hmem]
    refine ⟨?_, ?_, ?_⟩
    · intro h
      simp [h]
    · intro h
      have h0 : ¬ (nat.hid_read_timeout self.cptr (C_size_t numBytes)
          (C_int timeoutMillis)).1 = 0 := by omega
      refine ⟨nativeStore
        (nat.hid_read_timeout self.cptr (C_size_t numBytes) (C_int timeoutMillis)).2
        (List.replicate numBytes.toNat 0), ?_⟩
      simp only [h0, if_false, gt_iff_lt, h, if_true]
    · intro h
      have h0 : ¬ (nat.hid_read_timeout self.cptr (C_size_t numBytes)
          (C_int timeoutMillis)).1 = 0 := by omega
      have hp : ¬ (nat.hid_read_timeout self.cptr (C_size_t numBytes)
          (C_int timeoutMillis)).1 > 0 := by omega
      simp only [h0, hp, if_false]
  · intro hbig
    have hm : makeBytes nat.heap numBytes = .panicked .makesliceLenOutOfRange := by
      simp [makeBytes, hbig]
    simp only [Connection.Read_timeout, hc, hm, and_self]
  · intro hmax hmem
    have h1 : ¬ (numBytes < 0 ∨ (maxAlloc : Int) < numBytes) := by omega
    have hm : makeBytes nat.heap numBytes = .outOfMemory := by
      simp only [makeBytes, h1, hmem, if_false, if_true]
    simp only [Connection.Read_timeout, hc, hm, and_self]

/-- C1, as the code has it, at a concrete input: a failed read of 4 bytes on
the open connection 1, the native layer giving no error text. -/
theorem Read_timeout_three_outcomes_witness :
    (Connection.Read_timeout deadNative ⟨some 1⟩ 4 10).outcome
      = .returned (none, some ⟨lit "HID communication problem"⟩) :=
  ((Read_timeout_three_outcomes deadNative ⟨some 1⟩ 4 10 (by decide) (by decide)).1
    (by decide) (by decide)).2.2 (by decide)

/-- C1 fails as stated: for `numBytes = 2 ^ 62` on an open connection, with a
native layer whose timed read would answer 0, `Read_timeout` does not return
`(nil, nil)`: it panics in `make` ("makeslice: len out of range") and never
calls the native layer. -/
theorem Read_timeout_of_two_pow_62_panics :
    ((readNative 0 []).hid_read_timeout (some 1) (C_size_t (2 ^ 62)) (C_int 0)).1 = 0 ∧
    (Connection.Read_timeout (readNative 0 []) ⟨some 1⟩ (2 ^ 62) 0).outcome
      = .panicked .makesliceLenOutOfRange ∧
    (Connection.Read_timeout (readNative 0 []) ⟨some 1⟩ (2 ^ 62) 0).calls = [] := by
  decide

/-- The buffer after a native store that fits: the stored cells, then the cells
of the buffer that were not overwritten. -/
theorem nativeStore_replicate {α : Type} (written : List α) (n : Nat) (z : α)
    (h : written.length ≤ n) :
    nativeStore written (List.replicate n z)
      = written ++ List.replicate (n - written.length) z := by
  unfold nativeStore
  rw [List.drop_replicate, List.length_replicate]
  apply List.take_of_length_le
  simp only [List.length_append, List.length_replicate]
  omega

/-- The buffer keeps its length under a native store. -/
theorem nativeStore_length {α : Type} (written buf : List α) :
    (nativeStore written buf).length = buf.length := by
  simp only [nativeStore, List.length_take, List.length_append, List.length_drop]
  omega

/-- C2, as the code has it: on an open connection, for `numBytes ≥ 1` that
`make([]byte, numBytes)` can allocate (`numBytes ≤ maxAlloc` and the bytes
granted) and a positive native result, `Read_timeout` returns the whole buffer
it allocated, of length `numBytes` whatever the count the native layer
reported; when what the native layer stored fits the buffer, the slice is
those bytes followed by zero bytes up to `numBytes`. -/
theorem Read_timeout_returns_whole_buffer (nat : Native) (self : Connection)
    (numBytes timeoutMillis : Int) (hopen : self.cptr ≠ none) (hn : 1 ≤ numBytes)
    (hmax : numBytes ≤ (maxAlloc : Int)) (hmem : numBytes.toNat ≤ nat.heap)
    (hres : 0 < (nat.hid_read_timeout self.cptr (C_size_t numBytes) (C_int timeoutMillis)).1) :
    ∃ data, (self.Read_timeout nat numBytes timeoutMillis).outcome = .returned (some data, none) ∧
      (data.length : Int) = numBytes ∧
      ((nat.hid_read_timeout self.cptr (C_size_t numBytes) (C_int timeoutMillis)).2.length
          ≤ numBytes.toNat →
        data = (nat.hid_read_timeout self.cptr (C_size_t numBytes) (C_int timeoutMillis)).2
          ++ List.replicate (numBytes.toNat -
            (nat.hid_read_timeout self.cptr (C_size_t numBytes) (C_int timeoutMillis)).2.length) 0) := by
  have h0 : ¬ (nat.hid_read_timeout self.cptr (C_size_t numBytes) (C_int timeoutMillis)).1 = 0 := by
    omega
  refine ⟨nativeStore
    (nat.hid_read_timeout self.cptr (C_size_t numBytes) (C_int timeoutMillis)).2
    (List.replicate numBytes.toNat 0), ?_, ?_, ?_⟩
  · rw [Read_timeout_allocated nat self numBytes timeoutMillis hopen hn hmax hmem]
    simp only [h0, if_false, gt_iff_lt, hres, if_true]
  · rw [nativeStore_length, List.length_replicate]
    omega
  · intro hfit
    exact nativeStore_replicate _ _ _ hfit

/-- C2, as the code has it, at a concrete input: 2 bytes asked for, 2 delivered. -/
theorem Read_timeout_returns_whole_buffer_witness :
    ∃ data, (Connection.Read_timeout (readNative 2 [7, 9]) ⟨some 1⟩ 2 0).outcome
        = .returned (some data, none) ∧
      (data.length : Int) = 2 ∧
      ([7, 9].length ≤ (2 : Int).toNat → data = [7, 9] ++ List.replicate ((2 : Int).toNat - 2) 0) :=
  Read_timeout_returns_whole_buffer (readNative 2 [7, 9]) ⟨some 1⟩ 2 0 (by decide) (by decide)
    (by decide) (by decide) (by decide)

/-- C2 fails as stated: the native layer delivers 1 byte into a buffer of 2 and
`Read_timeout` returns 2 bytes, the delivered one and a zero byte. -/
theorem Read_timeout_short_read_returns_two_bytes :
    (readNative 1 [7]).hid_read_timeout (some 1) (C_size_t 2) (C_int 0) = (1, [7]) ∧
    (Connection.Read_timeout (readNative 1 [7]) ⟨some 1⟩ 2 0).outcome
      = .returned (some [7, 0], none) := by
  decide

/-! ### Writing -/

/-- C3: on an open connection and for a non-empty report, `Write` returns `nil`
exactly when the native write answers `len(report)`; on any other answer it
returns the error of `last_error()`, which is not `nil`; and its only call of
the native write is the one with the handle, the report and its length. -/
theorem Write_succeeds_iff_complete (nat : Native) (self : Connection) (report : List Nat)
    (hopen : self.cptr ≠ none) (hne : report ≠ []) :
    ((self.Write nat report).outcome = .returned none ↔
      nat.hid_write self.cptr report (C_size_t report.length) = (report.length : Int)) ∧
    (nat.hid_write self.cptr report (C_size_t report.length) ≠ (report.length : Int) →
      (self.Write nat report).outcome = .returned (some (self.last_error nat).2)) ∧
    (self.Write nat report).calls.filter NativeCall.isWrite
      = [.hid_write self.cptr report (C_size_t report.length)] := by
  have hlen : ¬ report.length = 0 := by
    intro h
    exact hne (List.length_eq_zero.mp h)
  by_cases hres : nat.hid_write self.cptr report (C_size_t report.length) = (report.length : Int)
  · simp [Connection.Write, Connection.errofIfClosed, hopen, hlen, hres, NativeCall.isWrite]
  · simp [Connection.Write, Connection.errofIfClosed, hopen, hlen, hres, NativeCall.isWrite,
      Connection.last_error]

/-- C3, at a concrete input: a report of 3 bytes of which the native layer
writes 2. -/
theorem Write_succeeds_iff_complete_witness :
    (Connection.Write (writeNative 2) ⟨some 1⟩ [0, 1, 2]).outcome
      = .returned (some ⟨lit "HID communication problem"⟩) :=
  (Write_succeeds_iff_complete (writeNative 2) ⟨some 1⟩ [0, 1, 2] (by decide) (by decide)).2.1
    (by decide)

/-- C4 fails as stated: `Write` of an empty report on an open connection does
not return an error, it panics (index out of range). -/
theorem empty_report_is_no_returned_error :
    (Connection.Write deadNative ⟨some 1⟩ []).outcome = .panicked .indexOutOfRange ∧
    ¬ ∃ err, (Connection.Write deadNative ⟨some 1⟩ []).outcome = .returned err := by
  refine ⟨by decide, ?_⟩
  rintro ⟨err, h⟩
  have hp : (Connection.Write deadNative ⟨some 1⟩ []).outcome = .panicked .indexOutOfRange := by
    decide
  rw [hp] at h
  cases h

/-- C4, as the code has it: on an open connection `Write` of an empty report
fails with a run-time panic (index out of range) and makes no native call. -/
theorem Write_empty_report_panics (nat : Native) (self : Connection)
    (hopen : self.cptr ≠ none) :
    (self.Write nat []).outcome = .panicked .indexOutOfRange ∧
    (self.Write nat []).calls = [] := by
  simp [Connection.Write, Connection.errofIfClosed, hopen]

/-- C4, as the code has it, at a concrete input. -/
theorem Write_empty_report_panics_witness :
    (Connection.Write (writeNative 0) ⟨some 1⟩ []).outcome = .panicked .indexOutOfRange ∧
    (Connection.Write (writeNative 0) ⟨some 1⟩ []).calls = [] :=
  Write_empty_report_panics (writeNative 0) ⟨some 1⟩ (by decide)

/-! ### Closed connections -/

/-- C5 fails as stated: on a closed connection `GetManufacturerStr` panics. -/
theorem GetManufacturerStr_closed_panics_example :
    (Connection.GetManufacturerStr deadNative ⟨none⟩).outcome
      = .panicked (.error ⟨lit "Connection already closed!"⟩) := by
  decide

/-- C5, as the code has it: on a closed connection `Read_timeout` and `Write`
return the error "HID connection already closed", the three string queries
panic with the error "Connection already closed!", and none of the five makes
a native call. -/
theorem closed_connection_operations (nat : Native) (self : Connection)
    (numBytes timeoutMillis : Int) (report : List Nat) (hclosed : self.cptr = none) :
    ((self.Read_timeout nat numBytes timeoutMillis).outcome
        = .returned (none, some ⟨lit "HID connection already closed"⟩) ∧
      (self.Read_timeout nat numBytes timeoutMillis).calls = []) ∧
    ((self.Write nat report).outcome = .returned (some ⟨lit "HID connection already closed"⟩) ∧
      (self.Write nat report).calls = []) ∧
    ((self.GetManufacturerStr nat).outcome = .panicked (.error ⟨lit "Connection already closed!"⟩) ∧
      (self.GetManufacturerStr nat).calls = []) ∧
    ((self.GetProductStr nat).outcome = .panicked (.error ⟨lit "Connection already closed!"⟩) ∧
      (self.GetProductStr nat).calls = []) ∧
    ((self.GetSerialNumber nat).outcome = .panicked (.error ⟨lit "Connection already closed!"⟩) ∧
      (self.GetSerialNumber nat).calls = []) := by
  simp [Connection.Read_timeout, Connection.Write, Connection.GetManufacturerStr,
    Connection.GetProductStr, Connection.GetSerialNumber, Connection.errofIfClosed,
    Connection.panic_ptr, hclosed]

/-- C5, as the code has it, at a concrete input: a read of 0 bytes and a write
of an empty report on a closed connection. -/
theorem closed_connection_operations_witness :
    (Connection.Read_timeout deadNative ⟨none⟩ 0 0).outcome
        = .returned (none, some ⟨lit "HID connection already closed"⟩) ∧
    (Connection.Write deadNative ⟨none⟩ []).outcome
        = .returned (some ⟨lit "HID connection already closed"⟩) :=
  ⟨(closed_connection_operations deadNative ⟨none⟩ 0 0 [] rfl).1.1,
    (closed_connection_operations deadNative ⟨none⟩ 0 0 [] rfl).2.1.1⟩

/-! ### Closing -/

/-- One method call on a closed connection leaves it closed and reaches no
native function. -/
theorem step_closed (nat : Native) (call : ConnectionCall) :
    call.step nat ⟨none⟩ = (⟨none⟩, []) := by
  cases call <;>
    simp [ConnectionCall.step, Connection.Close, Connection.Read_timeout, Connection.Write,
      Connection.GetManufacturerStr, Connection.GetProductStr, Connection.GetSerialNumber,
      Connection.errofIfClosed, Connection.panic_ptr]

/-- C6: `Close` on an open connection calls `hid_close` once with the handle and
leaves the connection closed; `Close` on a closed connection changes nothing
and makes no native call; `Close` twice has the state and the native calls of
`Close` once; and a closed connection stays closed under every sequence of
method calls (which then reaches no native function at all). -/
theorem Close_idempotent_and_final (ptr : Nat) (self : Connection) (nat₁ nat₂ : Native)
    (calls : List (Native × ConnectionCall)) :
    Connection.Close ⟨some ptr⟩ = (⟨none⟩, ⟨[.hid_close (some ptr)], .returned ()⟩) ∧
    Connection.Close ⟨none⟩ = (⟨none⟩, ⟨[], .returned ()⟩) ∧
    session self [(nat₁, .Close), (nat₂, .Close)] = session self [(nat₁, .Close)] ∧
    session ⟨none⟩ calls = (⟨none⟩, []) := by
  refine ⟨by simp [Connection.Close], by simp [Connection.Close], ?_, ?_⟩
  · cases self with
    | mk cptr =>
      cases cptr <;> simp [session, ConnectionCall.step, Connection.Close]
  · induction calls with
    | nil => rfl
    | cons c rest ih =>
      obtain ⟨nat, call⟩ := c
      simp only [session, step_closed, ih, List.append_nil]

/-! ### Lifecycle -/

/-- C9 fails as stated: after `Exit`, an `Init` whose `hid_init` answers 0 makes
the state Ready (1) again, and `Enumerate` then returns instead of panicking. -/
theorem Init_after_Exit_is_Ready :
    lifecycle (Exit 1).1 [.Init (initNative 0)] = 1 ∧
    (Enumerate (initNative 0) (lifecycle (Exit 1).1 [.Init (initNative 0)]) 0 0).outcome
      = .returned ([], none) := by
  decide

/-- C9, as the code has it: `Exit` sets the state to ShutDown (2) from every
state; the state stays 2 under every later sequence of `Exit` calls and of
`Init` calls whose `hid_init` does not answer 0; an `Init` whose `hid_init`
answers 0 sets the state to Ready (1) from every state; and in state 2 each of
`Enumerate`, `Open` and `DeviceInfo.Open` panics in `panicIfNotInit` with no
native call. -/
theorem ShutDown_until_successful_Init (g vendorId productId : Int) (nat : Native)
    (dev : DeviceInfo) (calls : List LifecycleCall)
    (hcalls : ∀ c ∈ calls, c.noSuccessfulInit) :
    (Exit g).1 = 2 ∧
    lifecycle (Exit g).1 calls = 2 ∧
    (nat.hid_init = 0 → (Init nat g).1 = 1) ∧
    Enumerate nat 2 vendorId productId
      = ⟨[], .panicked (.error ⟨lit "hidapi.Exit() was already called!"⟩)⟩ ∧
    Open nat 2 vendorId productId
      = ⟨[], .panicked (.error ⟨lit "hidapi.Exit() was already called!"⟩)⟩ ∧
    dev.Open nat 2 = ⟨[], .panicked (.error ⟨lit "hidapi.Exit() was already called!"⟩)⟩ := by
  refine ⟨rfl, ?_, ?_, ?_, ?_, ?_⟩
  · show lifecycle 2 calls = 2
    induction calls with
    | nil => rfl
    | cons c rest ih =>
      have hc : c.noSuccessfulInit := hcalls c (List.mem_cons_self _ _)
      have hrest : ∀ d ∈ rest, d.noSuccessfulInit := fun d hd =>
        hcalls d (List.mem_cons_of_mem _ hd)
      have hstep : LifecycleCall.next 2 c = 2 := by
        cases c with
        | Init n =>
          have hn : n.hid_init ≠ 0 := hc
          simp [LifecycleCall.next, Init, hn]
        | Exit => rfl
      simp only [lifecycle, List.foldl_cons, hstep]
      exact ih hrest
  · intro h
    simp [Init, h]
  · simp [Enumerate, panicIfNotInit]
  · simp [Open, panicIfNotInit]
  · simp [DeviceInfo.Open, panicIfNotInit]

/-- C9, as the code has it, at a concrete input: after `Exit`, a failing `Init`
and a second `Exit`. -/
theorem ShutDown_until_successful_Init_witness :
    lifecycle (Exit 1).1 [.Init (initNative (-1)), .Exit] = 2 :=
  (ShutDown_until_successful_Init 1 0 0 deadNative
    ⟨[], 0, 0, [], 0, [], [], 0, 0, 0⟩ [.Init (initNative (-1)), .Exit]
    (by
      intro c hc
      simp only [List.mem_cons, List.mem_singleton, List.not_mem_nil, or_false] at hc
      rcases hc with rfl | rfl
      · show (initNative (-1)).hid_init ≠ 0
        decide
      · trivial)).2.1

/-! ### Enumeration -/

/-- The loop of `Enumerate` appends one entry per record, in order. -/
theorem walk_eq (devs : List hid_device_info) (list : List DeviceInfo) :
    walk devs list = list ++ devs.map deviceOf := by
  induction devs generalizing list with
  | nil => simp [walk]
  | cons d rest ih => simp [walk, ih]

/-- C10: in state Ready (1), for every native list `Enumerate` returns
`(list, nil)` where `list` has one entry per native record, in the native
order; the numeric fields of an entry are those of its record, its string
fields are `wchar2str` of the record's strings, and its `Path` is the record's
path when that is not null and "?" when it is null; an empty native list gives
an empty list and no error. -/
theorem Enumerate_materialises_native_list (nat : Native) (vendorId productId : Int) :
    ∃ list, (Enumerate nat 1 vendorId productId).outcome = .returned (list, none) ∧
      list.length = (nat.hid_enumerate (C_ushort vendorId) (C_ushort productId)).length ∧
      (∀ (i : Nat) (d : DeviceInfo) (r : hid_device_info), list[i]? = some d →
        (nat.hid_enumerate (C_ushort vendorId) (C_ushort productId))[i]? = some r →
          d.VendorID = (r.vendor_id : Int) ∧ d.ProductID = (r.product_id : Int) ∧
          d.ReleaseNumber = (r.release_number : Int) ∧ d.UsagePage = (r.usage_page : Int) ∧
          d.Usage = (r.usage : Int) ∧ d.InterfaceNumber = r.interface_number ∧
          d.SerialNumber = wchar2str r.serial_number ∧
          d.ManufacturerStr = wchar2str r.manufacturer_string ∧
          d.ProductStr = wchar2str r.product_string ∧
          (∀ p, r.path = some p → d.Path = C_GoString p) ∧
          (r.path = none → d.Path = lit "?")) ∧
      (nat.hid_enumerate (C_ushort vendorId) (C_ushort productId) = [] → list = []) := by
  refine ⟨(nat.hid_enumerate (C_ushort vendorId) (C_ushort productId)).map deviceOf, ?_, ?_, ?_, ?_⟩
  · simp [Enumerate, panicIfNotInit, walk_eq]
  · simp
  · intro i d r hd hr
    rw [List.getElem?_map, hr] at hd
    simp only [Option.map_some', Option.some.injEq] at hd
    subst hd
    cases hp : r.path with
    | none => simp [deviceOf, hp]
    | some q => simp [deviceOf, hp]
  · intro h
    simp [h]

/-! ### The wide-character decoders -/

/-- Bitwise difference from `0xFF` is subtraction of the low 8 bits. -/
theorem ldiff_0xFF (m : Nat) : Nat.ldiff 255 m = 255 - m % 256 := by
  apply Nat.eq_of_testBit_eq
  intro i
  have h : m % 256 < 2 ^ 8 := Nat.mod_lt _ (by norm_num)
  have e : 255 - m % 256 = 2 ^ 8 - (m % 256 + 1) := by omega
  have e2 : (255 : Nat) = 2 ^ 8 - 1 := by norm_num
  have e3 : (256 : Nat) = 2 ^ 8 := by norm_num
  rw [e, Nat.testBit_two_pow_sub_succ h, Nat.ldiff, Nat.testBit_bitwise (by rfl)]
  rw [e2, Nat.testBit_two_pow_sub_one, e3, Nat.testBit_mod_two_pow]
  by_cases hi : i < 8 <;> simp [hi]

/-- The mask `c & 0xFF` is `c mod 256`, for negative `c` too. -/
theorem land_0xFF (c : Int) : Int.land c 0xFF = c % 256 := by
  cases c with
  | ofNat n =>
    show ((Nat.land n 255 : Nat) : Int) = _
    have h : Nat.land n 255 = n % 256 := Nat.and_pow_two_sub_one_eq_mod n 8
    rw [h]
    rfl
  | negSucc m =>
    show ((Nat.ldiff 255 m : Nat) : Int) = _
    rw [ldiff_0xFF]
    have h : m % 256 < 256 := Nat.mod_lt _ (by norm_num)
    rw [Int.negSucc_eq]
    omega

/-- The byte stored for the wide character `c`: `c mod 256`. -/
theorem byte_land_0xFF (c : Int) : byte (Int.land c 0xFF) = (c % 256).toNat := by
  rw [land_0xFF, byte, Int.emod_emod_of_dvd c (dvd_refl 256)]

/-- The length `wcslen` finds when the characters `cs`, none of them zero, are
followed by a zero cell. -/
theorem wcslen_append_zero (cs rest : List Int) (h : ∀ c ∈ cs, c ≠ 0) :
    wcslen (cs ++ 0 :: rest) = cs.length := by
  induction cs with
  | nil => simp [wcslen]
  | cons c cs ih =>
    have hc : c ≠ 0 := h c (List.mem_cons_self _ _)
    have hcs : ∀ d ∈ cs, d ≠ 0 := fun d hd => h d (List.mem_cons_of_mem _ hd)
    simp [wcslen, hc, ih hcs]

/-- The decoder `wchar2str` on a null-terminated wide string of at most `2 ^ 32`
characters: one byte per character, the character mod 256. -/
theorem wchar2str_spec (cs rest : List Int) (h : ∀ c ∈ cs, c ≠ 0) (hlen : cs.length ≤ 2 ^ 32) :
    wchar2str (some (cs ++ 0 :: rest)) = cs.map (fun c => (c % 256).toNat) := by
  unfold wchar2str
  simp only [wcslen_append_zero cs rest h]
  apply List.ext_getElem
  · simp
  · intro i h1 h2
    have hi : i < cs.length := by simpa using h2
    have hu : C_uint i = i := by
      unfold C_uint
      exact Nat.mod_eq_of_lt (by omega)
    rw [List.getElem_map, List.getElem_map, List.getElem_range, hu, byte_land_0xFF]
    have hw : wchar_at (cs ++ 0 :: rest) i = cs[i] := by
      unfold wchar_at
      rw [List.getD_eq_getElem _ _ (by simp; omega), List.getElem_append_left hi]
    rw [hw]

/-- Where the scan of `wcharBuf2str` stops: at the first zero cell, or at the
end of the buffer. -/
theorem findTerm_spec (l : List Int) (k : Nat) (h : k + l.length ≤ wchar_buffer_size) :
    ∃ m, findTerm l k = k + m ∧ m ≤ l.length ∧ (∀ j, j < m → l.getD j 0 ≠ 0) ∧
      (m < l.length → l.getD m 0 = 0) := by
  induction l generalizing k with
  | nil => exact ⟨0, by simp [findTerm]⟩
  | cons c rest ih =>
    have hk : k < wchar_buffer_size := by
      simp only [List.length_cons] at h
      omega
    by_cases hc : c = 0
    · exact ⟨0, by simp [findTerm, hc]⟩
    · obtain ⟨m, hm, hle, hnz, hz⟩ := ih (k + 1) (by simp only [List.length_cons] at h; omega)
      refine ⟨m + 1, ?_, ?_, ?_, ?_⟩
      · simp only [findTerm, hk, hc, ne_eq, not_false_eq_true, and_self, if_true, hm]
        omega
      · simp only [List.length_cons]
        omega
      · intro j hj
        cases j with
        | zero => simpa using hc
        | succ j =>
          simp only [List.getD_cons_succ]
          exact hnz j (by omega)
      · intro hlt
        simp only [List.getD_cons_succ]
        exact hz (by simp only [List.length_cons] at hlt; omega)

/-- The decoder `wcharBuf2str` on every buffer: the result has one byte per
element before the first zero element (all 256 if there is none), the element
mod 256. -/
theorem wcharBuf2str_spec (wchars : WcharBuf) :
    ∃ n, n ≤ 256 ∧ (∀ j, j < n → wchars.cells.getD j 0 ≠ 0) ∧
      (n < 256 → wchars.cells.getD n 0 = 0) ∧
      (wcharBuf2str wchars).length = n ∧
      ∀ i, i < n → ((wcharBuf2str wchars).getD i 0 : Int) = wchars.cells.getD i 0 % 256 := by
  have hsize := wchars.size
  obtain ⟨m, hm, hle, hnz, hz⟩ := findTerm_spec wchars.cells 0 (by rw [hsize]; simp)
  have hwb : wchar_buffer_size = 256 := rfl
  rw [Nat.zero_add] at hm
  refine ⟨m, by omega, hnz, fun h => hz (by omega), ?_, ?_⟩
  · simp [wcharBuf2str, hm]
  · intro i hi
    have hr : (wcharBuf2str wchars).getD i 0
        = byte (Int.land (wchars.cells.getD i 0) 0xFF) := by
      unfold wcharBuf2str
      simp only [hm]
      rw [List.getD_eq_getElem _ _ (by simpa using hi), List.getElem_map, List.getElem_range]
    rw [hr, byte_land_0xFF]
    exact Int.toNat_of_nonneg (Int.emod_nonneg _ (by norm_num))

/-- Where the scan of `wcharBuf2str` stops when the characters `cs`, none of
them zero, are followed by a zero cell inside the buffer. -/
theorem findTerm_append_zero (cs rest : List Int) (k : Nat) (h : ∀ c ∈ cs, c ≠ 0)
    (hk : k + cs.length ≤ wchar_buffer_size) :
    findTerm (cs ++ 0 :: rest) k = k + cs.length := by
  induction cs generalizing k with
  | nil => simp [findTerm]
  | cons c cs ih =>
    have hc : c ≠ 0 := h c (List.mem_cons_self _ _)
    have hcs : ∀ d ∈ cs, d ≠ 0 := fun d hd => h d (List.mem_cons_of_mem _ hd)
    have hlt : k < wchar_buffer_size := by
      simp only [List.length_cons] at hk
      omega
    have hstep := ih (k + 1) hcs (by simp only [List.length_cons] at hk; omega)
    have e : findTerm (c :: (cs ++ 0 :: rest)) k = findTerm (cs ++ 0 :: rest) (k + 1) := by
      simp [findTerm, hlt, hc]
    rw [List.cons_append, e, hstep, List.length_cons]
    omega

/-- The index wraps: when `n` wide characters 'A' (with `n` a positive multiple
of `2 ^ 32`) are followed by 'B' and the terminator, `wchar2str` returns
`n + 1` bytes and the byte at index `n` is 'A', read at index `C.uint(n) = 0`. -/
theorem wchar2str_wraps (n : Nat) (hpos : 0 < n) (hmod : n % 2 ^ 32 = 0) :
    (wchar2str (some (List.replicate n 65 ++ [66, 0]))).length = n + 1 ∧
    (wchar2str (some (List.replicate n 65 ++ [66, 0])))[n]? = some 65 := by
  have hs : List.replicate n (65 : Int) ++ [66, 0]
      = (List.replicate n 65 ++ [66]) ++ 0 :: [] := by simp
  have hnz : ∀ c ∈ List.replicate n (65 : Int) ++ [66], c ≠ 0 := by
    intro c hc
    rcases List.mem_append.mp hc with h | h
    · rw [List.eq_of_mem_replicate h]
      decide
    · rw [List.mem_singleton.mp h]
      decide
  have hlen : wcslen (List.replicate n (65 : Int) ++ [66, 0]) = n + 1 := by
    rw [hs, wcslen_append_zero _ _ hnz]
    simp
  have hat : wchar_at (List.replicate n (65 : Int) ++ [66, 0]) (C_uint n) = 65 := by
    have hu : C_uint n = 0 := hmod
    rw [hu, wchar_at, List.getD_eq_getElem?_getD,
      List.getElem?_append_left (by simpa using hpos), List.getElem?_replicate]
    simp [hpos]
  unfold wchar2str
  simp only [hlen]
  refine ⟨by simp, ?_⟩
  rw [List.getElem?_map, List.getElem?_range (by omega)]
  simp only [Option.map_some', hat, byte_land_0xFF]
  rfl

/-- The decoder `wcharBuf2str` on a buffer that starts with the characters `cs`,
none of them zero, followed by a zero cell: one byte per character, the
character mod 256. -/
theorem wcharBuf2str_terminated (wchars : WcharBuf) (cs rest : List Int)
    (hcells : wchars.cells = cs ++ 0 :: rest) (h : ∀ c ∈ cs, c ≠ 0) :
    wcharBuf2str wchars = cs.map (fun c => (c % 256).toNat) := by
  have hsize := wchars.size
  rw [hcells, List.length_append, List.length_cons] at hsize
  have hft : findTerm (cs ++ 0 :: rest) 0 = cs.length := by
    rw [findTerm_append_zero cs rest 0 h (by omega)]
    omega
  unfold wcharBuf2str
  simp only [hcells, hft]
  apply List.ext_getElem
  · simp
  · intro i h1 h2
    have hi : i < cs.length := by simpa using h2
    rw [List.getElem_map, List.getElem_map, List.getElem_range, byte_land_0xFF,
      List.getD_eq_getElem _ _ (by simp; omega), List.getElem_append_left hi]

/-- C7, the code at the failing input: the wide string of `2 ^ 32` characters
'A' (65) followed by one 'B' (66) and the terminator has 'B' at index `2 ^ 32`;
`wchar2str` returns `2 ^ 32 + 1` bytes, and its byte at index `2 ^ 32` is 'A',
not 'B' mod 256: the index handed to `wchar_at` is `C.uint(i)`, which is 0
there. -/
theorem wchar2str_wraps_at_two_pow_32 :
    (List.replicate (2 ^ 32) (65 : Int) ++ [66, 0])[2 ^ 32]? = some 66 ∧
    (wchar2str (some (List.replicate (2 ^ 32) 65 ++ [66, 0]))).length = 2 ^ 32 + 1 ∧
    (wchar2str (some (List.replicate (2 ^ 32) 65 ++ [66, 0])))[2 ^ 32]? = some 65 := by
  refine ⟨?_, wchar2str_wraps (2 ^ 32) (by norm_num) (by norm_num)⟩
  rw [List.getElem?_append_right (by rw [List.length_replicate]), List.length_replicate,
    Nat.sub_self]
  rfl

set_option maxRecDepth 8192 in
/-- The truncation rule on the example of the specification: U+0141 decodes to
the single byte 0x41, by either decoder. -/
theorem decode_U0141 :
    wchar2str (some [0x141, 0]) = [0x41] ∧
    wcharBuf2str (WcharBuf.filled [0x141]) = [0x41] := by
  decide

/-! ### The string bridge -/

/-- A host string of ASCII code points holds one byte per code point. -/
theorem hostString_ascii (cps : List Nat) (h : ∀ c ∈ cps, c ≤ 127) : hostString cps = cps := by
  induction cps with
  | nil => rfl
  | cons c cps ih =>
    have hc : c < 128 := Nat.lt_succ_of_le (h c (List.mem_cons_self _ _))
    have hcps : ∀ d ∈ cps, d ≤ 127 := fun d hd => h d (List.mem_cons_of_mem _ hd)
    have ih2 : List.flatMap cps utf8EncodeRune = cps := ih hcps
    simp [hostString, List.flatMap_cons, utf8EncodeRune, hc, ih2]

/-- Truncation to the low 8 bits leaves code points below 256 as they are. -/
theorem truncate_ofNat (cps : List Nat) (h : ∀ c ∈ cps, c ≤ 127) :
    (cps.map Int.ofNat).map (fun c => (c % 256).toNat) = cps := by
  induction cps with
  | nil => rfl
  | cons c cps ih =>
    have hc : c ≤ 127 := h c (List.mem_cons_self _ _)
    have hcps : ∀ d ∈ cps, d ≤ 127 := fun d hd => h d (List.mem_cons_of_mem _ hd)
    have hb : ((Int.ofNat c) % 256).toNat = c := by
      have : (Int.ofNat c) % 256 = (c : Int) := by
        show (c : Int) % 256 = (c : Int)
        omega
      rw [this]
      rfl
    simp only [List.map_cons, hb, ih hcps]

set_option maxRecDepth 8192 in
/-- C8 fails as stated: the host string "é" (the one code point U+00E9, the
bytes C3 A9 in Go) is encoded as the wide characters E9, 0 and decoded, by
either decoder, to the single byte E9, which is another string. -/
theorem round_trip_fails_on_U00E9 :
    hostString [0xE9] = [0xC3, 0xA9] ∧
    wchar2str (some (encodeWide [0xE9])) = [0xE9] ∧
    wcharBuf2str (bufferOf [0xE9] (by decide)) = [0xE9] ∧
    wchar2str (some (encodeWide [0xE9])) ≠ hostString [0xE9] ∧
    wcharBuf2str (bufferOf [0xE9] (by decide)) ≠ hostString [0xE9] := by
  decide

/-- C8, as the code has it: for every host string of at most `2 ^ 32` code
points, all of them ASCII (1 to 127), encoding it as a null-terminated wide
string and decoding that with `wchar2str` gives the string back, and so does
decoding with `wcharBuf2str` the 256-element buffer that holds it when it has
fewer than 256 code points. -/
theorem round_trip_ascii (cps : List Nat) (hcp : ∀ c ∈ cps, 1 ≤ c ∧ c ≤ 127)
    (hlen : cps.length ≤ 2 ^ 32) :
    wchar2str (some (encodeWide cps)) = hostString cps ∧
    ∀ h : cps.length < wchar_buffer_size, wcharBuf2str (bufferOf cps h) = hostString cps := by
  have hle : ∀ c ∈ cps, c ≤ 127 := fun c hc => (hcp c hc).2
  have hnz : ∀ c ∈ cps.map Int.ofNat, c ≠ 0 := by
    intro c hc
    obtain ⟨n, hn, rfl⟩ := List.mem_map.mp hc
    have h1 := (hcp n hn).1
    show (n : Int) ≠ 0
    omega
  rw [hostString_ascii cps hle]
  constructor
  · have e : encodeWide cps = cps.map Int.ofNat ++ 0 :: [] := rfl
    rw [e, wchar2str_spec _ _ hnz (by simpa using hlen), truncate_ofNat cps hle]
  · intro h
    have hpos : wchar_buffer_size - cps.length
        = (wchar_buffer_size - cps.length - 1) + 1 := by omega
    have e : (bufferOf cps h).cells = cps.map Int.ofNat
        ++ 0 :: List.replicate (wchar_buffer_size - cps.length - 1) 0 := by
      show cps.map Int.ofNat ++ List.replicate (wchar_buffer_size - cps.length) 0 = _
      rw [hpos, List.replicate_succ]
      simp
    rw [wcharBuf2str_terminated _ _ _ e hnz, truncate_ofNat cps hle]

/-- C8, as the code has it, at a concrete input: the host string "Hi". -/
theorem round_trip_ascii_witness :
    wchar2str (some (encodeWide [72, 105])) = hostString [72, 105] ∧
    wcharBuf2str (bufferOf [72, 105] (by decide)) = hostString [72, 105] :=
  ⟨(round_trip_ascii [72, 105] (by decide) (by decide)).1,
    (round_trip_ascii [72, 105] (by decide) (by decide)).2 (by decide)⟩

end hid
